import Mathlib

/-!
Verification of the tiny_ffmpeg service (src/main.py) against its
specification.  The development shallowly embeds the core of the program:
the task store (`save_task`, `get_task`-style lookup, `update_task_status`),
the duration-reconciliation logic embedded inline in
`process_merge_video_audio` and `process_replace_audio`, the control flow of
those two background runs (status writes, clip open/close bookkeeping), and
the retention manager `cleanup_old_files`.  Durations are modelled as
rationals; Python float division by zero is modelled as an explicit
`ZeroDivisionError` branch; `int(x)` on a nonnegative quotient is modelled
by `intTrunc` (truncation toward zero).
-/

namespace TinyFfmpeg

/-- Task status enum, from `class TaskStatus` (src/main.py lines 30-34). -/
inductive TaskStatus where
  | pending
  | processing
  | success
  | failed
deriving DecidableEq, Repr

/-- Position of a status in the state machine
`pending -> processing -> {success, failed}`; both terminal states share
the final rank. -/
def statusRank : TaskStatus → ℕ
  | .pending => 0
  | .processing => 1
  | .success => 2
  | .failed => 2

/-- A task record as stored in `tasks/{task_id}.json`; only the fields the
claims mention are modelled (`status`, `message`, `created_at`,
`updated_at`). -/
structure TaskRec where
  status : TaskStatus
  message : String
  createdAt : ℕ
  updatedAt : ℕ
deriving DecidableEq, Repr

/-- The task record built by the route handlers at creation time
(src/main.py lines 411-420, 496-505, 584-593): status starts `pending`. -/
def createTaskRecord (now : ℕ) : TaskRec :=
  { status := .pending
    message := ("Task created, waiting to start processing")
    createdAt := now
    updatedAt := now }

/-- `update_task_status` (src/main.py lines 88-95): loads the record, sets
the new status and message, stamps `updated_at` with the current time, and
persists.  When the task does not exist (`get_task` returns `None`) it is a
silent no-op. -/
def update_task_status (now : ℕ) (status : TaskStatus) (message : String) :
    Option TaskRec → Option TaskRec
  | none => none
  | some r => some { r with status := status, message := message, updatedAt := now }

/-- Replace-or-append write of one keyed record, the filesystem semantics of
`open(task_file, 'w')` followed by `json.dump` (a write to an existing path
replaces its content; a write to a fresh path creates it). -/
def setEntry (k v : String) : List (String × String) → List (String × String)
  | [] => [(k, v)]
  | p :: rest => if p.1 = k then (k, v) :: rest else p :: setEntry k v rest

/-- Lookup of one keyed record by identifier. -/
def lookupEntry (k : String) (l : List (String × String)) : Option String :=
  (l.find? (fun p => p.1 == k)).map Prod.snd

/-- The task store: the durable records under `tasks/` and the in-memory
cache `tasks` dict (src/main.py lines 36-37, 58, 70). -/
structure TaskStore where
  files : List (String × String)
  cache : List (String × String)
deriving DecidableEq, Repr

/-- `save_task` (src/main.py lines 68-73): writes `tasks/{task_id}.json`
with mode `'w'` and stores the data in the in-memory dict.  There is no
existence check of any kind: an existing record with the same identifier is
replaced. -/
def save_task (task_id task_data : String) (s : TaskStore) : TaskStore :=
  { files := setEntry task_id task_data s.files
    cache := setEntry task_id task_data s.cache }

/-- A media clip as held by the external engine, at the granularity the
claims need: its duration in seconds and whether loop / trim operations have
been applied to it. -/
structure Clip where
  duration : ℚ
  loopsApplied : ℕ
  trimmed : Bool
deriving DecidableEq, Repr

/-- `clip.loop(n)`: the looped clip lasts `n` times the original duration. -/
def Clip.loop (c : Clip) (n : ℤ) : Clip :=
  { duration := (n : ℚ) * c.duration, loopsApplied := c.loopsApplied + 1, trimmed := c.trimmed }

/-- `clip.subclip(t0, t1)`: the extracted clip lasts `t1 - t0`. -/
def Clip.subclip (c : Clip) (t0 t1 : ℚ) : Clip :=
  { duration := t1 - t0, loopsApplied := c.loopsApplied, trimmed := true }

/-- Python `int(q)` for a rational `q`: truncation toward zero. -/
def intTrunc (q : ℚ) : ℤ :=
  if 0 ≤ q then ⌊q⌋ else ⌈q⌉

/-- The duration-reconciliation logic of `process_merge_video_audio`
(src/main.py lines 156-169), shared by the `merge` and `loop_exact`
policies (the `/loop-video-to-audio` route schedules the same function):
if the audio is longer, the video is looped `int(a / v) + 1` times and
trimmed to exactly the audio duration (a Python `ZeroDivisionError` is
raised when the video duration is zero); if the video is longer it is
trimmed to the audio duration; otherwise both clips pass through. -/
def reconcileMerge (video audio : Clip) : Except String (Clip × Clip) :=
  if audio.duration > video.duration then
    if video.duration = 0 then .error ("ZeroDivisionError")
    else
      let loops_needed := intTrunc (audio.duration / video.duration) + 1
      .ok ((video.loop loops_needed).subclip 0 audio.duration, audio)
  else if video.duration > audio.duration then
    .ok (video.subclip 0 audio.duration, audio)
  else
    .ok (video, audio)

/-- The duration-reconciliation logic of `process_replace_audio`
(src/main.py lines 238-251), the `replace` policy: if the audio is longer,
the video is looped and trimmed exactly as under `merge`; if the video is
longer, the audio is looped `int(v / a) + 1` times and trimmed to exactly
the video duration (a `ZeroDivisionError` is raised when the audio duration
is zero); otherwise both clips pass through. -/
def reconcileReplace (video audio : Clip) : Except String (Clip × Clip) :=
  if audio.duration > video.duration then
    if video.duration = 0 then .error ("ZeroDivisionError")
    else
      let loops_needed := intTrunc (audio.duration / video.duration) + 1
      .ok ((video.loop loops_needed).subclip 0 audio.duration, audio)
  else if video.duration > audio.duration then
    if audio.duration = 0 then .error ("ZeroDivisionError")
    else
      let loops_needed := intTrunc (video.duration / audio.duration) + 1
      .ok (video, (audio.loop loops_needed).subclip 0 video.duration)
  else
    .ok (video, audio)

/-- Whether an `Except` result is a success. -/
def isOkResult {α : Type} (e : Except String α) : Bool :=
  match e with
  | .ok _ => true
  | .error _ => false

/-- The external-engine operations a background run performs; each may raise
(corrupt input, unsupported codec, disk full, ...).  A run is parameterised
by an oracle saying which operations raise. -/
inductive EngineOp where
  | loadVideo
  | loadAudio
  | loopClip
  | subclipClip
  | setAudioClip
  | writeFile
deriving DecidableEq, Repr, BEq

/-- Observable state of one background combine run: the ordered list of
`update_task_status` writes (status and message), and which engine-held
clips were opened and closed. -/
structure RunState where
  writes : List (TaskStatus × String)
  videoOpened : Bool
  audioOpened : Bool
  finalOpened : Bool
  videoClosed : Bool
  audioClosed : Bool
  finalClosed : Bool
  outputWritten : Bool
deriving DecidableEq, Repr

/-- The run state before any statement of the body executed. -/
def initRun : RunState :=
  { writes := []
    videoOpened := false
    audioOpened := false
    finalOpened := false
    videoClosed := false
    audioClosed := false
    finalClosed := false
    outputWritten := false }

/-- Append one `update_task_status` write to the run's write log. -/
def pushW (s : RunState) (st : TaskStatus) (m : String) : RunState :=
  { s with writes := s.writes ++ [(st, m)] }

/-- The statements of `process_merge_video_audio` after the duration branch
(src/main.py lines 171-207): compose with `set_audio`, write the `Writing`
progress message, encode, close the three clips, write the terminal
`success` update.  Returns `Except.error` carrying the run state at the
point a statement raised. -/
def mergeTail (fails : EngineOp → Bool) (s : RunState) : Except RunState RunState :=
  if fails .setAudioClip then .error s
  else
    let s := { s with finalOpened := true }
    let s := pushW s .processing ("Writing merged video file")
    if fails .writeFile then .error s
    else
      let s := { s with outputWritten := true
                        videoClosed := true, audioClosed := true, finalClosed := true }
      .ok (pushW s .success ("Video merge completed successfully"))

/-- The `try` body of `process_merge_video_audio` (src/main.py
lines 144-207): the first `processing` update, the two clip loads, the
duration branch of `reconcileMerge` with its progress messages (the looping
branch raises `ZeroDivisionError` when the video duration is zero, before
any loop operation), then `mergeTail`.  `v` and `a` are the measured video
and audio durations; `fails` says which engine operations raise. -/
def mergeBody (v a : ℚ) (fails : EngineOp → Bool) : Except RunState RunState :=
  let s := pushW initRun .processing ("Loading video and audio files")
  if fails .loadVideo then .error s
  else
    let s := { s with videoOpened := true }
    if fails .loadAudio then .error s
    else
      let s := { s with audioOpened := true }
      if a > v then
        let s := pushW s .processing ("Audio is longer - looping video to match")
        if v = 0 then .error s
        else if fails .loopClip then .error s
        else if fails .subclipClip then .error s
        else mergeTail fails s
      else if v > a then
        let s := pushW s .processing ("Video is longer - trimming to match audio")
        if fails .subclipClip then .error s
        else mergeTail fails s
      else
        mergeTail fails (pushW s .processing ("Video and audio durations match"))

/-- The `except` clause shared by both processing functions: a normal
completion returns the body's final state; a raise appends a terminal
`failed` status write (src/main.py lines 209-212 and 291-294). -/
def runOf (failMsg : String) : Except RunState RunState → RunState
  | .ok s => s
  | .error s => pushW s .failed failMsg

/-- `process_merge_video_audio` (src/main.py lines 142-222): the `try` body,
with the `except` clause converting any raise into a terminal `failed`
status write.  The `finally` clause only removes the temporary input files
and is not part of the observable run state. -/
def process_merge_video_audio (v a : ℚ) (fails : EngineOp → Bool) : RunState :=
  runOf ("Error processing merge") (mergeBody v a fails)

/-- The statements of `process_replace_audio` after the duration branch
(src/main.py lines 253-289), identical in shape to `mergeTail` with the
replace-specific messages. -/
def replaceTail (fails : EngineOp → Bool) (s : RunState) : Except RunState RunState :=
  if fails .setAudioClip then .error s
  else
    let s := { s with finalOpened := true }
    let s := pushW s .processing ("Writing video with replaced audio")
    if fails .writeFile then .error s
    else
      let s := { s with outputWritten := true
                        videoClosed := true, audioClosed := true, finalClosed := true }
      .ok (pushW s .success ("Audio replacement completed successfully"))

/-- The `try` body of `process_replace_audio` (src/main.py lines 226-289):
as `mergeBody`, but when the video is longer the audio clip is looped and
trimmed (raising `ZeroDivisionError` when the audio duration is zero,
before any loop operation). -/
def replaceBody (v a : ℚ) (fails : EngineOp → Bool) : Except RunState RunState :=
  let s := pushW initRun .processing ("Loading video and audio files")
  if fails .loadVideo then .error s
  else
    let s := { s with videoOpened := true }
    if fails .loadAudio then .error s
    else
      let s := { s with audioOpened := true }
      if a > v then
        let s := pushW s .processing ("Audio is longer - looping video to match")
        if v = 0 then .error s
        else if fails .loopClip then .error s
        else if fails .subclipClip then .error s
        else replaceTail fails s
      else if v > a then
        let s := pushW s .processing ("Video is longer - looping audio to match")
        if a = 0 then .error s
        else if fails .loopClip then .error s
        else if fails .subclipClip then .error s
        else replaceTail fails s
      else
        replaceTail fails (pushW s .processing ("Video and audio durations match"))

/-- `process_replace_audio` (src/main.py lines 224-304): the `try` body with
the `except` clause converting any raise into a terminal `failed` write. -/
def process_replace_audio (v a : ℚ) (fails : EngineOp → Bool) : RunState :=
  runOf ("Error processing audio replacement") (replaceBody v a fails)

/-- The statuses written by a run, in order. -/
def statusesOf (r : RunState) : List TaskStatus :=
  r.writes.map Prod.fst

/-- A status trace is a non-decreasing walk w.r.t. `statusRank`. -/
def monoTrace : List TaskStatus → Bool
  | [] => true
  | [_] => true
  | x :: y :: rest => decide (statusRank x ≤ statusRank y) && monoTrace (y :: rest)

/-- No status is written after a terminal (`success`/`failed`) one. -/
def terminalLast : List TaskStatus → Bool
  | [] => true
  | x :: rest => (!decide (statusRank x = 2) || rest.isEmpty) && terminalLast rest

/-- Every status in the list is `processing`. -/
def allProcessing (l : List TaskStatus) : Bool :=
  l.all (fun s => s == .processing)

/-- The last status of a trace, if any. -/
def lastStatus : List TaskStatus → Option TaskStatus
  | [] => none
  | [x] => some x
  | _ :: rest => lastStatus rest

/-- Whether a run ended with a terminal `success` write. -/
def succeededRun (r : RunState) : Bool :=
  match lastStatus (statusesOf r) with
  | some .success => true
  | _ => false

/-- Shape of the run state at the point the `try` body raised: only
`processing` statuses have been written and no clip has been closed. -/
def errShapeB (r : RunState) : Bool :=
  allProcessing (statusesOf r) && !r.videoClosed && !r.audioClosed && !r.finalClosed

/-- Shape of the run state when the `try` body completed: the last write is
the terminal `success`, every earlier write is `processing`, and the three
clips have been closed. -/
def okShapeB (r : RunState) : Bool :=
  (match lastStatus (statusesOf r) with | some .success => true | _ => false) &&
    allProcessing (statusesOf r).dropLast &&
    r.videoClosed && r.audioClosed && r.finalClosed

/-- Shape invariant of a body result on both exits. -/
def bodyShapeOk : Except RunState RunState → Bool
  | .ok s => okShapeB s
  | .error s => errShapeB s

/-- The no-failure engine oracle. -/
def okEngine : EngineOp → Bool := fun _ => false

/-- The oracle where only the final encode (`write_videofile`) raises. -/
def failWriteOnly : EngineOp → Bool := fun op => op == .writeFile

/-- Boolean test that `pre` is an initial segment of `s`, the semantics of
Python `str.startswith` on the characters of the strings. -/
def isLeadChars : List Char → List Char → Bool
  | [], _ => true
  | _ :: _, [] => false
  | a :: as, b :: bs => a == b && isLeadChars as bs

/-- `filename.startswith(pre)` on our char-list view of strings. -/
def strHasLead (pre s : String) : Bool := isLeadChars pre.data s.data

/-- Everything after the first underscore of the character list; empty when
there is no underscore. -/
def afterFirstUnderscoreChars : List Char → List Char
  | [] => []
  | c :: cs => if c == '_' then cs else afterFirstUnderscoreChars cs

/-- Python `filename.split('_', 1)[1]`: the substring after the first
underscore (only evaluated under the `startswith` guard, so an underscore
is always present). -/
def afterFirstUnderscore (s : String) : String :=
  ⟨afterFirstUnderscoreChars s.data⟩

/-- Characters of `pathlib.Path(s).stem` for an ordinary file name: the name
up to its last dot, the whole name when it has no dot. -/
def stemChars (cs : List Char) : List Char :=
  if cs.contains ('.') then ((cs.reverse.dropWhile (fun c => !(c == '.'))).tail).reverse
  else cs

/-- `file_path.stem` on our char-list view of strings. -/
def stemOf (s : String) : String := ⟨stemChars s.data⟩

/-- The on-disk state the retention manager acts on: the files of `output/`
(name and `st_ctime`), the task ids having a record under `tasks/`, and the
task ids present in the in-memory cache. -/
structure FsState where
  output : List (String × ℕ)
  taskFiles : List String
  cache : List String
deriving DecidableEq, Repr

/-- The per-file task-record eviction of `cleanup_old_files` (src/main.py
lines 118-129): take the artifact's stem, and when it starts with
`merged_` or `replaced_audio_`, derive a task id as everything after the
first underscore (`filename.split('_', 1)[1]`) and delete that task's
record file and cache entry when present. -/
def deleteTaskFor (st : FsState) (fname : String) : FsState :=
  let stem := stemOf fname
  if strHasLead ("merged_") stem || strHasLead ("replaced_audio_") stem then
    let task_id := afterFirstUnderscore stem
    { st with taskFiles := st.taskFiles.filter (fun t => !(t == task_id))
              cache := st.cache.filter (fun t => !(t == task_id)) }
  else st

/-- One iteration of the deletion loop of `cleanup_old_files` (src/main.py
lines 113-132): unlink the artifact and evict its task record; when the
deletion raises (`failDelete`), log and leave this file's state untouched,
continuing with the remaining files. -/
def deleteStep (failDelete : String → Bool) (st : FsState) (entry : String × ℕ) : FsState :=
  if failDelete entry.1 then st
  else
    let st1 := { st with output := st.output.filter (fun p => !(p.1 == entry.1)) }
    deleteTaskFor st1 entry.1

/-- Insertion of one artifact into a list sorted by creation time, newest
first. -/
def insertByCtime (x : String × ℕ) : List (String × ℕ) → List (String × ℕ)
  | [] => [x]
  | y :: ys => if y.2 ≤ x.2 then x :: y :: ys else y :: insertByCtime x ys

/-- `output_files.sort(key=lambda x: x[1], reverse=True)` (src/main.py
line 107): sort by creation time, newest first. -/
def sortByCtimeDesc (l : List (String × ℕ)) : List (String × ℕ) :=
  l.foldr insertByCtime []

/-- `cleanup_old_files` (src/main.py lines 97-139) with the process-wide
bound `MAX_OUTPUT_FILES` passed as `maxFiles`: list the output artifacts,
sort them newest first, and when the count exceeds the bound delete every
artifact beyond the `maxFiles` newest together with its task record and
cache entry; otherwise do nothing. -/
def cleanup_old_files (maxFiles : ℕ) (failDelete : String → Bool) (st : FsState) : FsState :=
  let sorted := sortByCtimeDesc st.output
  if sorted.length ≤ maxFiles then st
  else (sorted.drop maxFiles).foldl (deleteStep failDelete) st

/-- The never-failing deletion oracle. -/
def noDeleteFailure : String → Bool := fun _ => false

/-- The three task-creating HTTP routes (src/main.py lines 329, 448, 533). -/
inductive Route where
  | merge
  | mergeReplaceAudio
  | loopVideoToAudio
deriving DecidableEq, Repr

/-- The two background processing functions the routes can schedule. -/
inductive BackgroundProc where
  | procMergeVideoAudio
  | procReplaceAudio
deriving DecidableEq, Repr

/-- Which background function each route passes to
`background_tasks.add_task` (src/main.py lines 424, 509, 597): the
`/loop-video-to-audio` route reuses `process_merge_video_audio`. -/
def routeBackgroundProc : Route → BackgroundProc
  | .merge => .procMergeVideoAudio
  | .mergeReplaceAudio => .procReplaceAudio
  | .loopVideoToAudio => .procMergeVideoAudio

/-- The run semantics of each background function. -/
def procRun : BackgroundProc → ℚ → ℚ → (EngineOp → Bool) → RunState
  | .procMergeVideoAudio => process_merge_video_audio
  | .procReplaceAudio => process_replace_audio

/-- The output artifact name each background function writes (src/main.py
lines 175 and 257). -/
def procOutputFile : BackgroundProc → String → String
  | .procMergeVideoAudio, task_id => ("merged_") ++ task_id ++ (".mp4")
  | .procReplaceAudio, task_id => ("replaced_audio_") ++ task_id ++ (".mp4")

theorem intTrunc_eq_floor {q : ℚ} (h : 0 ≤ q) : intTrunc q = ⌊q⌋ := if_pos h

theorem le_succ_floor_mul {v : ℚ} (a : ℚ) (hv : 0 < v) :
    a ≤ ((⌊a / v⌋ + 1 : ℤ) : ℚ) * v := by
  have h1 : a / v < (⌊a / v⌋ : ℚ) + 1 := Int.lt_floor_add_one _
  have h2 : a < ((⌊a / v⌋ : ℚ) + 1) * v := (div_lt_iff₀ hv).mp h1
  push_cast
  linarith

theorem statusesOf_pushW (s : RunState) (st : TaskStatus) (m : String) :
    statusesOf (pushW s st m) = statusesOf s ++ [st] := by
  simp [statusesOf, pushW]

theorem lastStatus_append_singleton (l : List TaskStatus) (x : TaskStatus) :
    lastStatus (l ++ [x]) = some x := by
  induction l with
  | nil => rfl
  | cons y l ih =>
    cases l with
    | nil => simp [lastStatus]
    | cons z l => simpa [lastStatus] using ih

theorem dropLast_append_of_lastStatus {l : List TaskStatus} {x : TaskStatus}
    (h : lastStatus l = some x) : l.dropLast ++ [x] = l := by
  induction l with
  | nil => simp [lastStatus] at h
  | cons y l ih =>
    cases l with
    | nil => simp [lastStatus] at h; simp [h]
    | cons z l =>
      have h' : lastStatus (z :: l) = some x := h
      simpa [List.dropLast] using congrArg (y :: ·) (ih h')

theorem mono_proc_term (l : List TaskStatus) (h t : TaskStatus)
    (hh : statusRank h ≤ 1) (hl : allProcessing l = true) (ht : statusRank t = 2) :
    monoTrace (h :: (l ++ [t])) = true ∧ terminalLast (h :: (l ++ [t])) = true := by
  induction l generalizing h with
  | nil =>
    have hne : ¬statusRank h = 2 := by omega
    refine ⟨?_, ?_⟩
    · simp only [List.nil_append, monoTrace, Bool.and_eq_true, decide_eq_true_eq]
      exact ⟨by omega, trivial⟩
    · simp [terminalLast, hne]
  | cons x l ih =>
    have hx : x = .processing := by
      have hx' := List.all_eq_true.mp hl x (by simp)
      simpa using hx'
    subst hx
    have hl' : allProcessing l = true := by
      simp only [allProcessing, List.all_cons, Bool.and_eq_true] at hl
      exact hl.2
    have hrest := ih .processing (le_refl 1) hl'
    have hne : ¬statusRank h = 2 := by omega
    refine ⟨?_, ?_⟩
    · simp only [List.cons_append, monoTrace, Bool.and_eq_true, decide_eq_true_eq]
      refine ⟨by simpa [statusRank] using hh, ?_⟩
      simpa using hrest.1
    · simp only [List.cons_append, terminalLast, Bool.and_eq_true, Bool.or_eq_true,
        Bool.not_eq_eq_eq_not, Bool.not_true, decide_eq_false_iff_not]
      refine ⟨Or.inl hne, ?_⟩
      simpa [terminalLast] using hrest.2

set_option maxHeartbeats 1000000 in
theorem mergeBody_shape (v a : ℚ) (fails : EngineOp → Bool) :
    bodyShapeOk (mergeBody v a fails) = true := by
  dsimp only [mergeBody, mergeTail]
  split_ifs <;> rfl

set_option maxHeartbeats 1000000 in
theorem replaceBody_shape (v a : ℚ) (fails : EngineOp → Bool) :
    bodyShapeOk (replaceBody v a fails) = true := by
  dsimp only [replaceBody, replaceTail]
  split_ifs <;> rfl

theorem runOf_trace_ok (m : String) (e : Except RunState RunState)
    (h : bodyShapeOk e = true) :
    monoTrace (.pending :: statusesOf (runOf m e)) = true ∧
    terminalLast (.pending :: statusesOf (runOf m e)) = true := by
  cases e with
  | ok s =>
    have h' : okShapeB s = true := h
    simp only [okShapeB] at h'
    rcases hls : lastStatus (statusesOf s) with _ | t
    · rw [hls] at h'; simp at h'
    · cases t
      case pending => rw [hls] at h'; simp at h'
      case processing => rw [hls] at h'; simp at h'
      case failed => rw [hls] at h'; simp at h'
      case success =>
        rw [hls] at h'
        simp only [Bool.and_eq_true] at h'
        obtain ⟨⟨⟨⟨-, hap⟩, hv⟩, ha⟩, hf⟩ := h'
        have hdec := dropLast_append_of_lastStatus hls
        have hmt := mono_proc_term (statusesOf s).dropLast .pending .success
          (by decide) hap rfl
        simp only [runOf]
        rw [← hdec]
        exact hmt
  | error s =>
    have h' : errShapeB s = true := h
    simp only [errShapeB, Bool.and_eq_true, Bool.not_eq_true'] at h'
    obtain ⟨⟨⟨hap, hv⟩, ha⟩, hf⟩ := h'
    have hmt := mono_proc_term (statusesOf s) .pending .failed (by decide) hap rfl
    simp only [runOf, statusesOf_pushW]
    exact hmt

theorem runOf_closes_iff_success (m : String) (e : Except RunState RunState)
    (h : bodyShapeOk e = true) :
    (runOf m e).videoClosed = succeededRun (runOf m e) ∧
    (runOf m e).audioClosed = succeededRun (runOf m e) ∧
    (runOf m e).finalClosed = succeededRun (runOf m e) := by
  cases e with
  | ok s =>
    have h' : okShapeB s = true := h
    simp only [okShapeB] at h'
    rcases hls : lastStatus (statusesOf s) with _ | t
    · rw [hls] at h'; simp at h'
    · cases t
      case pending => rw [hls] at h'; simp at h'
      case processing => rw [hls] at h'; simp at h'
      case failed => rw [hls] at h'; simp at h'
      case success =>
        rw [hls] at h'
        simp only [Bool.and_eq_true] at h'
        obtain ⟨⟨⟨⟨-, hap⟩, hv⟩, ha⟩, hf⟩ := h'
        have hsucc : succeededRun s = true := by simp [succeededRun, hls]
        simp only [runOf, hsucc]
        exact ⟨hv, ha, hf⟩
  | error s =>
    have h' : errShapeB s = true := h
    simp only [errShapeB, Bool.and_eq_true, Bool.not_eq_true'] at h'
    obtain ⟨⟨⟨hap, hv⟩, ha⟩, hf⟩ := h'
    have hsucc : succeededRun (pushW s .failed m) = false := by
      simp [succeededRun, statusesOf_pushW, lastStatus_append_singleton]
    simp only [runOf, hsucc]
    exact ⟨hv, ha, hf⟩

/-- C1: for positive durations, under policy `merge` (also scheduled for
`loop_exact`, see `routeBackgroundProc`), when the audio is longer the
video is looped `⌊a / v⌋ + 1` times and trimmed to exactly the audio
duration `a`, and `(⌊a / v⌋ + 1) * v ≥ a`; when the video is longer it is
trimmed to `a` and the audio is untouched; in both cases the resulting
common duration is the original audio duration. -/
theorem c1_merge_loops_video_to_audio_duration (video audio : Clip)
    (hv : 0 < video.duration) (ha : 0 < audio.duration) :
    (video.duration < audio.duration →
      reconcileMerge video audio =
        .ok ((video.loop (⌊audio.duration / video.duration⌋ + 1)).subclip 0 audio.duration,
             audio) ∧
      ((video.loop (⌊audio.duration / video.duration⌋ + 1)).subclip 0 audio.duration).duration
        = audio.duration ∧
      audio.duration ≤ ((⌊audio.duration / video.duration⌋ + 1 : ℤ) : ℚ) * video.duration) ∧
    (audio.duration < video.duration →
      reconcileMerge video audio = .ok (video.subclip 0 audio.duration, audio) ∧
      (video.subclip 0 audio.duration).duration = audio.duration) := by
  constructor
  · intro hlt
    have hvne : video.duration ≠ 0 := ne_of_gt hv
    have h0 : 0 ≤ audio.duration / video.duration := by positivity
    refine ⟨?_, ?_, le_succ_floor_mul audio.duration hv⟩
    · simp [reconcileMerge, hlt, hvne, intTrunc_eq_floor h0]
    · simp [Clip.subclip]
  · intro hlt
    refine ⟨?_, ?_⟩
    · simp [reconcileMerge, hlt, not_lt_of_gt hlt, asymm hlt]
    · simp [Clip.subclip]

theorem c1_merge_loops_video_to_audio_duration_witness :
    (0:ℚ) < (Clip.mk 10 0 false).duration ∧
    (Clip.mk 10 0 false).duration < (Clip.mk 25 0 false).duration ∧
    (⌊(Clip.mk 25 0 false).duration / (Clip.mk 10 0 false).duration⌋ + 1 : ℤ) = 3 ∧
    (reconcileMerge (Clip.mk 10 0 false) (Clip.mk 25 0 false) =
        .ok (((Clip.mk 10 0 false).loop
                (⌊(Clip.mk 25 0 false).duration / (Clip.mk 10 0 false).duration⌋ + 1)).subclip
               0 (Clip.mk 25 0 false).duration,
             Clip.mk 25 0 false) ∧
      (((Clip.mk 10 0 false).loop
          (⌊(Clip.mk 25 0 false).duration / (Clip.mk 10 0 false).duration⌋ + 1)).subclip
         0 (Clip.mk 25 0 false).duration).duration = (Clip.mk 25 0 false).duration ∧
      (Clip.mk 25 0 false).duration ≤
        ((⌊(Clip.mk 25 0 false).duration / (Clip.mk 10 0 false).duration⌋ + 1 : ℤ) : ℚ) *
          (Clip.mk 10 0 false).duration) :=
  ⟨by decide, by decide, by show (⌊(25:ℚ) / 10⌋ + 1 : ℤ) = 3; norm_num,
   (c1_merge_loops_video_to_audio_duration (Clip.mk 10 0 false) (Clip.mk 25 0 false)
      (by decide) (by decide)).1 (by decide)⟩

/-- C2: for positive durations, under policy `replace`, when the video is
longer the audio is looped `⌊v / a⌋ + 1` times and trimmed to exactly the
video duration `v` while the video is untouched, and `(⌊v / a⌋ + 1) * a ≥ v`;
when the audio is longer the behaviour coincides with policy `merge`. -/
theorem c2_replace_loops_audio_to_video_duration (video audio : Clip)
    (hv : 0 < video.duration) (ha : 0 < audio.duration) :
    (audio.duration < video.duration →
      reconcileReplace video audio =
        .ok (video,
             (audio.loop (⌊video.duration / audio.duration⌋ + 1)).subclip 0 video.duration) ∧
      ((audio.loop (⌊video.duration / audio.duration⌋ + 1)).subclip 0 video.duration).duration
        = video.duration ∧
      video.duration ≤ ((⌊video.duration / audio.duration⌋ + 1 : ℤ) : ℚ) * audio.duration) ∧
    (video.duration < audio.duration →
      reconcileReplace video audio = reconcileMerge video audio ∧
      reconcileReplace video audio =
        .ok ((video.loop (⌊audio.duration / video.duration⌋ + 1)).subclip 0 audio.duration,
             audio)) := by
  constructor
  · intro hlt
    have hane : audio.duration ≠ 0 := ne_of_gt ha
    have h0 : 0 ≤ video.duration / audio.duration := by positivity
    refine ⟨?_, ?_, le_succ_floor_mul video.duration ha⟩
    · simp [reconcileReplace, hlt, not_lt_of_gt hlt, asymm hlt, hane, intTrunc_eq_floor h0]
    · simp [Clip.subclip]
  · intro hlt
    have hvne : video.duration ≠ 0 := ne_of_gt hv
    have h0 : 0 ≤ audio.duration / video.duration := by positivity
    constructor
    · simp [reconcileReplace, reconcileMerge, hlt, hvne]
    · simp [reconcileReplace, hlt, hvne, intTrunc_eq_floor h0]

theorem c2_replace_loops_audio_to_video_duration_witness :
    (0:ℚ) < (Clip.mk 10 0 false).duration ∧
    (Clip.mk 10 0 false).duration < (Clip.mk 30 0 false).duration ∧
    (⌊(Clip.mk 30 0 false).duration / (Clip.mk 10 0 false).duration⌋ + 1 : ℤ) = 4 ∧
    (reconcileReplace (Clip.mk 30 0 false) (Clip.mk 10 0 false) =
        .ok (Clip.mk 30 0 false,
             ((Clip.mk 10 0 false).loop
                (⌊(Clip.mk 30 0 false).duration / (Clip.mk 10 0 false).duration⌋ + 1)).subclip
               0 (Clip.mk 30 0 false).duration) ∧
      (((Clip.mk 10 0 false).loop
          (⌊(Clip.mk 30 0 false).duration / (Clip.mk 10 0 false).duration⌋ + 1)).subclip
         0 (Clip.mk 30 0 false).duration).duration = (Clip.mk 30 0 false).duration ∧
      (Clip.mk 30 0 false).duration ≤
        ((⌊(Clip.mk 30 0 false).duration / (Clip.mk 10 0 false).duration⌋ + 1 : ℤ) : ℚ) *
          (Clip.mk 10 0 false).duration) :=
  ⟨by decide, by decide, by show (⌊(30:ℚ) / 10⌋ + 1 : ℤ) = 4; norm_num,
   (c2_replace_loops_audio_to_video_duration (Clip.mk 30 0 false) (Clip.mk 10 0 false)
      (by decide) (by decide)).1 (by decide)⟩

/-- C5: when the measured durations are equal the comparison branches of
both processing functions fall through to the `else` arm and both clips
pass through unmodified, under every policy (`loop_exact` runs the same
function as `merge`, see `routeBackgroundProc`). -/
theorem c5_equal_durations_pass_through (video audio : Clip)
    (h : video.duration = audio.duration) :
    reconcileMerge video audio = .ok (video, audio) ∧
    reconcileReplace video audio = .ok (video, audio) := by
  constructor
  · simp [reconcileMerge, h, lt_irrefl]
  · simp [reconcileReplace, h, lt_irrefl]

theorem c5_equal_durations_pass_through_witness :
    (Clip.mk 7 0 false).duration = (Clip.mk 7 0 false).duration ∧
    (reconcileMerge (Clip.mk 7 0 false) (Clip.mk 7 0 false) =
        .ok (Clip.mk 7 0 false, Clip.mk 7 0 false) ∧
      reconcileReplace (Clip.mk 7 0 false) (Clip.mk 7 0 false) =
        .ok (Clip.mk 7 0 false, Clip.mk 7 0 false)) :=
  ⟨rfl, c5_equal_durations_pass_through (Clip.mk 7 0 false) (Clip.mk 7 0 false) rfl⟩

/-- C6 counterexample: with a measured audio duration of `0` and video
duration `1`, the merge reconciliation is applied rather than rejected: it
returns a successful transformation that trims the video to duration `0`.
No validation of non-positive durations precedes it anywhere in the
processing functions. -/
theorem c6_counterexample_zero_audio_is_processed :
    reconcileMerge (Clip.mk 1 0 false) (Clip.mk 0 0 false) =
      .ok (Clip.mk 0 0 true, Clip.mk 0 0 false) ∧
    isOkResult (reconcileMerge (Clip.mk 1 0 false) (Clip.mk 0 0 false)) = true ∧
    (Clip.mk 0 0 true).trimmed = true := by
  refine ⟨?_, ?_, rfl⟩
  · norm_num [reconcileMerge, Clip.subclip]
  · norm_num [reconcileMerge, Clip.subclip, isOkResult]

/-- C6 amended: the code performs no duration validation, and the
reconciliation rules are applied to non-positive durations.  Under `merge`
(and `loop_exact`) an audio duration of `0` with a positive video duration
trims the video to `0` and proceeds with no failure; a video duration of
`0` with longer audio fails with a `ZeroDivisionError` raised inside the
reconciliation (after the clips were loaded), surfaced as a `failed` task,
not as a rejection before the engine is invoked; under `replace` an audio
duration of `0` with longer video likewise fails inside the
reconciliation. -/
theorem c6_amended_no_validation_of_degenerate_durations (video audio : Clip) :
    (video.duration = 0 → 0 < audio.duration →
      reconcileMerge video audio = .error ("ZeroDivisionError") ∧
      reconcileReplace video audio = .error ("ZeroDivisionError")) ∧
    (audio.duration = 0 → 0 < video.duration →
      reconcileMerge video audio = .ok (video.subclip 0 audio.duration, audio) ∧
      reconcileReplace video audio = .error ("ZeroDivisionError")) ∧
    statusesOf (process_merge_video_audio 0 2 okEngine) =
      [.processing, .processing, .failed] := by
  refine ⟨?_, ?_, by decide⟩
  · intro h0 hpos
    constructor <;> simp [reconcileMerge, reconcileReplace, h0, hpos, asymm hpos]
  · intro h0 hpos
    constructor <;> simp [reconcileMerge, reconcileReplace, h0, hpos, asymm hpos]

theorem c6_amended_no_validation_of_degenerate_durations_witness :
    ((Clip.mk 0 0 false).duration = 0 ∧ 0 < (Clip.mk 3 0 false).duration ∧
      (reconcileMerge (Clip.mk 0 0 false) (Clip.mk 3 0 false) = .error ("ZeroDivisionError") ∧
        reconcileReplace (Clip.mk 0 0 false) (Clip.mk 3 0 false) =
          .error ("ZeroDivisionError"))) ∧
    ((Clip.mk 0 0 false).duration = 0 ∧ 0 < (Clip.mk 3 0 false).duration ∧
      (reconcileMerge (Clip.mk 3 0 false) (Clip.mk 0 0 false) =
          .ok ((Clip.mk 3 0 false).subclip 0 (Clip.mk 0 0 false).duration, Clip.mk 0 0 false) ∧
        reconcileReplace (Clip.mk 3 0 false) (Clip.mk 0 0 false) =
          .error ("ZeroDivisionError"))) :=
  ⟨⟨rfl, by decide,
    (c6_amended_no_validation_of_degenerate_durations (Clip.mk 0 0 false)
        (Clip.mk 3 0 false)).1 rfl (by decide)⟩,
   ⟨rfl, by decide,
    (c6_amended_no_validation_of_degenerate_durations (Clip.mk 3 0 false)
        (Clip.mk 0 0 false)).2.1 rfl (by decide)⟩⟩

/-- C4: a task is created `pending`; over any run of either processing
function, for any durations and any pattern of engine failures, the
sequence of statuses written over the task's lifetime is a non-decreasing
walk through `pending -> processing -> {success, failed}`; nothing is
written after the terminal status (the record is only removed wholesale by
`cleanup_old_files`); and `update_task_status` stamps `updated_at` on every
mutation while being a no-op on a missing record. -/
theorem c4_status_monotone_lifecycle (v a : ℚ) (fails : EngineOp → Bool)
    (now now2 : ℕ) (r : TaskRec) (st : TaskStatus) (msg : String) :
    (createTaskRecord now).status = .pending ∧
    monoTrace (.pending :: statusesOf (process_merge_video_audio v a fails)) = true ∧
    terminalLast (.pending :: statusesOf (process_merge_video_audio v a fails)) = true ∧
    monoTrace (.pending :: statusesOf (process_replace_audio v a fails)) = true ∧
    terminalLast (.pending :: statusesOf (process_replace_audio v a fails)) = true ∧
    update_task_status now2 st msg (some r) =
      some { r with status := st, message := msg, updatedAt := now2 } ∧
    update_task_status now2 st msg none = none := by
  have hm := runOf_trace_ok ("Error processing merge") _ (mergeBody_shape v a fails)
  have hr := runOf_trace_ok ("Error processing audio replacement") _
    (replaceBody_shape v a fails)
  exact ⟨rfl, hm.1, hm.2, hr.1, hr.2, rfl, rfl⟩

/-- C7 counterexample: when the final encode raises, the run exits through
the `except` path with the video, audio and composed clips all opened but
none of them closed — the claimed release on all exit paths does not
happen (the three `close()` calls sit after `write_videofile` inside the
`try` block and there is no `finally`-based release). -/
theorem c7_counterexample_failed_write_leaks_clips :
    (process_merge_video_audio 10 25 failWriteOnly).videoOpened = true ∧
    (process_merge_video_audio 10 25 failWriteOnly).audioOpened = true ∧
    (process_merge_video_audio 10 25 failWriteOnly).finalOpened = true ∧
    (process_merge_video_audio 10 25 failWriteOnly).videoClosed = false ∧
    (process_merge_video_audio 10 25 failWriteOnly).audioClosed = false ∧
    (process_merge_video_audio 10 25 failWriteOnly).finalClosed = false ∧
    lastStatus (statusesOf (process_merge_video_audio 10 25 failWriteOnly)) =
      some .failed := by
  refine ⟨?_, ?_, ?_, ?_, ?_, ?_, ?_⟩ <;> decide

/-- C7 amended: in both processing functions the clips are released exactly
on the success path — when the run ends with the terminal `success` write
all three clips are closed, and on every failure exit none of them is
closed. -/
theorem c7_amended_clips_closed_iff_success (v a : ℚ) (fails : EngineOp → Bool) :
    ((process_merge_video_audio v a fails).videoClosed =
        succeededRun (process_merge_video_audio v a fails) ∧
      (process_merge_video_audio v a fails).audioClosed =
        succeededRun (process_merge_video_audio v a fails) ∧
      (process_merge_video_audio v a fails).finalClosed =
        succeededRun (process_merge_video_audio v a fails)) ∧
    ((process_replace_audio v a fails).videoClosed =
        succeededRun (process_replace_audio v a fails) ∧
      (process_replace_audio v a fails).audioClosed =
        succeededRun (process_replace_audio v a fails) ∧
      (process_replace_audio v a fails).finalClosed =
        succeededRun (process_replace_audio v a fails)) :=
  ⟨runOf_closes_iff_success _ _ (mergeBody_shape v a fails),
   runOf_closes_iff_success _ _ (replaceBody_shape v a fails)⟩

theorem lookupEntry_setEntry (k v : String) (l : List (String × String)) :
    lookupEntry k (setEntry k v l) = some v := by
  induction l with
  | nil => simp [setEntry, lookupEntry, List.find?]
  | cons p rest ih =>
    by_cases h : p.1 = k
    · simp [setEntry, h, lookupEntry, List.find?]
    · have hb : (p.1 == k) = false := by simpa using h
      simp only [setEntry, if_neg h, lookupEntry, List.find?, hb]
      exact ih

/-- C8 counterexample: `save_task` on an identifier that already has a
record silently replaces it — the second save of `t1` succeeds and the
store afterwards holds the new data, with no conflict signalled (the
function has no failure path at all). -/
theorem c8_counterexample_save_task_overwrites :
    lookupEntry ("t1")
        (save_task ("t1") ("new") (save_task ("t1") ("old") (TaskStore.mk [] []))).files =
      some ("new") ∧
    lookupEntry ("t1")
        (save_task ("t1") ("new") (save_task ("t1") ("old") (TaskStore.mk [] []))).cache =
      some ("new") ∧
    ("new") ≠ ("old") := by
  refine ⟨?_, ?_, ?_⟩ <;> decide

/-- C8 amended: `save_task` persists unconditionally: after saving, the
record stored under the identifier — in the durable files and in the cache
alike — is the supplied data; an existing record with the same identifier
is silently overwritten and no `ConflictError` exists. -/
theorem c8_amended_save_task_last_write_wins (task_id task_data : String) (s : TaskStore) :
    lookupEntry task_id (save_task task_id task_data s).files = some task_data ∧
    lookupEntry task_id (save_task task_id task_data s).cache = some task_data :=
  ⟨lookupEntry_setEntry task_id task_data s.files,
   lookupEntry_setEntry task_id task_data s.cache⟩

theorem perm_insertByCtime (x : String × ℕ) (l : List (String × ℕ)) :
    List.Perm (insertByCtime x l) (x :: l) := by
  induction l with
  | nil => exact List.Perm.refl _
  | cons y ys ih =>
    by_cases h : y.2 ≤ x.2
    · simp [insertByCtime, h]
    · simp only [insertByCtime, if_neg h]
      exact (ih.cons y).trans (List.Perm.swap x y ys)

theorem sortByCtimeDesc_perm (l : List (String × ℕ)) :
    List.Perm (sortByCtimeDesc l) l := by
  induction l with
  | nil => exact List.Perm.refl _
  | cons x xs ih => exact (perm_insertByCtime x (sortByCtimeDesc xs)).trans (ih.cons x)

theorem deleteStep_output_noFail (st : FsState) (e : String × ℕ) :
    (deleteStep noDeleteFailure st e).output =
      st.output.filter (fun p => !(p.1 == e.1)) := by
  simp only [deleteStep, noDeleteFailure, deleteTaskFor, Bool.false_eq_true,
    if_false]
  split <;> rfl

theorem foldl_deleteStep_output (L : List (String × ℕ)) (st : FsState) :
    (L.foldl (deleteStep noDeleteFailure) st).output =
      st.output.filter (fun p => L.all (fun q => !(p.1 == q.1))) := by
  induction L generalizing st with
  | nil => simp
  | cons e L ih =>
    rw [List.foldl_cons, ih, deleteStep_output_noFail, List.filter_filter]
    congr 1
    funext p
    simp [List.all_cons, Bool.and_comm]

theorem cleanup_noop_of_le (N : ℕ) (fd : String → Bool) (st : FsState)
    (h : st.output.length ≤ N) : cleanup_old_files N fd st = st := by
  have hlen : (sortByCtimeDesc st.output).length ≤ N := by
    rw [(sortByCtimeDesc_perm st.output).length_eq]
    exact h
  simp [cleanup_old_files, hlen]

theorem cleanup_output_length_le (N : ℕ) (st : FsState) :
    (cleanup_old_files N noDeleteFailure st).output.length ≤ N := by
  by_cases h : (sortByCtimeDesc st.output).length ≤ N
  · simp only [cleanup_old_files, if_pos h]
    rw [← (sortByCtimeDesc_perm st.output).length_eq]
    exact h
  · simp only [cleanup_old_files, if_neg h]
    rw [foldl_deleteStep_output]
    set L := (sortByCtimeDesc st.output).drop N with hL
    set pred : String × ℕ → Bool := fun p => L.all (fun q => !(p.1 == q.1)) with hpred
    have hperm : List.Perm st.output ((sortByCtimeDesc st.output).take N ++ L) := by
      rw [hL, List.take_append_drop]
      exact (sortByCtimeDesc_perm st.output).symm
    have hlen := (hperm.filter pred).length_eq
    have hnil : L.filter pred = [] := by
      refine List.filter_eq_nil_iff.mpr ?_
      intro q hq hqt
      have := List.all_eq_true.mp hqt q hq
      simp at this
    rw [List.filter_append, hnil, List.append_nil] at hlen
    rw [hlen]
    calc ((sortByCtimeDesc st.output).take N |>.filter pred).length
        ≤ ((sortByCtimeDesc st.output).take N).length := List.length_filter_le _ _
      _ ≤ N := by rw [List.length_take]; exact min_le_left _ _

/-- C9: the retention enforcement is idempotent: with no new artifacts
created in between, a second `cleanup_old_files` call leaves the state
unchanged, and any call made when the artifact count does not exceed the
bound is a no-op. -/
theorem c9_cleanup_idempotent (maxFiles : ℕ) (st : FsState) :
    cleanup_old_files maxFiles noDeleteFailure
        (cleanup_old_files maxFiles noDeleteFailure st) =
      cleanup_old_files maxFiles noDeleteFailure st ∧
    (st.output.length ≤ maxFiles → cleanup_old_files maxFiles noDeleteFailure st = st) :=
  ⟨cleanup_noop_of_le maxFiles noDeleteFailure _ (cleanup_output_length_le maxFiles st),
   fun h => cleanup_noop_of_le maxFiles noDeleteFailure st h⟩

theorem c9_cleanup_idempotent_witness :
    cleanup_old_files 2 noDeleteFailure
        (cleanup_old_files 2 noDeleteFailure
          (FsState.mk [(("merged_W.mp4"), 3)] [("W")] [("W")])) =
      cleanup_old_files 2 noDeleteFailure
        (FsState.mk [(("merged_W.mp4"), 3)] [("W")] [("W")]) ∧
    cleanup_old_files 2 noDeleteFailure
        (FsState.mk [(("merged_W.mp4"), 3)] [("W")] [("W")]) =
      FsState.mk [(("merged_W.mp4"), 3)] [("W")] [("W")] :=
  ⟨(c9_cleanup_idempotent 2 (FsState.mk [(("merged_W.mp4"), 3)] [("W")] [("W")])).1,
   (c9_cleanup_idempotent 2 (FsState.mk [(("merged_W.mp4"), 3)] [("W")] [("W")])).2
     (by decide)⟩

/-- C3: evaluation of `cleanup_old_files` at a failing input.  With a bound
of `1` and artifacts `merged_A.mp4` (newer) and `replaced_audio_B.mp4`
(older), the older artifact is deleted, but task `B`'s record and cache
entry survive: the code derives the task id with
`filename.split('_', 1)[1]`, which yields `audio_B` for the
`replaced_audio_` naming convention, so the corresponding record is never
found.  The same run on a `merged_B.mp4` artifact does delete task `B`,
showing the intended behaviour on the other naming convention. -/
theorem c3_replaced_audio_task_record_survives_eviction :
    cleanup_old_files 1 noDeleteFailure
        (FsState.mk [(("merged_A.mp4"), 10), (("replaced_audio_B.mp4"), 5)]
          [("A"), ("B")] [("A"), ("B")]) =
      FsState.mk [(("merged_A.mp4"), 10)] [("A"), ("B")] [("A"), ("B")] ∧
    cleanup_old_files 1 noDeleteFailure
        (FsState.mk [(("merged_A.mp4"), 10), (("merged_B.mp4"), 5)]
          [("A"), ("B")] [("A"), ("B")]) =
      FsState.mk [(("merged_A.mp4"), 10)] [("A")] [("A")] ∧
    afterFirstUnderscore (stemOf ("replaced_audio_B.mp4")) = ("audio_B") := by
  refine ⟨?_, ?_, ?_⟩ <;> decide

/-- C10: the `/loop-video-to-audio` route schedules exactly the same
background function as `/merge` (`process_merge_video_audio`), so the
`loop_exact` policy's processing is extensionally identical to `merge`'s,
and a `loop_video` task's output artifact is named `merged_{task_id}.mp4`
— the merge naming, with no loop-specific name. -/
theorem c10_loop_route_reuses_merge_processing :
    routeBackgroundProc .loopVideoToAudio = routeBackgroundProc .merge ∧
    (∀ (v a : ℚ) (fails : EngineOp → Bool),
      procRun (routeBackgroundProc .loopVideoToAudio) v a fails =
        process_merge_video_audio v a fails) ∧
    (∀ task_id : String,
      procOutputFile (routeBackgroundProc .loopVideoToAudio) task_id =
        ("merged_") ++ task_id ++ (".mp4")) :=
  ⟨rfl, fun _ _ _ => rfl, fun _ => rfl⟩

end TinyFfmpeg
